import Mathlib

/-!
Verification of the reMarkable `.lines`-to-SVG converter scripts
(`src/rM2svg` and `src/rM2svg_improved`) of the
vscode-remarkable-manager repository.

The two Python scripts are shallowly embedded below.  Bytes are `Nat`
(each < 256), IEEE-754 binary32 fields are decoded exactly into `ℚ`
(the non-finite bit patterns, which no claim exercises, are mapped to 0),
Python float arithmetic is idealised as exact rational arithmetic, and
`str.format` with `:.3f` is idealised as exact decimal rounding.  Each
`output.write` call of the scripts becomes one element of a chunk list;
the final SVG text is the concatenation of the chunks.  Diagnostic
`print` calls become elements of a log list.  The process-global
`stroke_colour` table mutated by `set_coloured_annots` is modelled by
explicit palette-state passing.
-/

unseal Rat.add Rat.mul Rat.inv Rat.sub Rat.ofScientific

set_option maxRecDepth 40000

namespace RM

abbrev Bytes := List Nat

def byteAt (d : Bytes) (i : Nat) : Nat := d.getD i 0

/-- Little-endian uint32 as read by struct format `<I`. -/
def readU32 (d : Bytes) (i : Nat) : Nat :=
  byteAt d i + 256 * byteAt d (i+1) + 65536 * byteAt d (i+2) + 16777216 * byteAt d (i+3)

/-- Exact rational value of an IEEE-754 binary32 bit pattern, as read by
struct format `<f`.  Exponent-255 patterns (infinities and NaNs) have no
rational value and are mapped to 0; no claim exercises them. -/
def decodeF32bits (n : Nat) : ℚ :=
  let s : Nat := n / 2^31 % 2
  let e : Nat := n / 2^23 % 256
  let m : Nat := n % 2^23
  let mag : ℚ :=
    if e = 0 then (m : ℚ) / 2^149
    else if e = 255 then 0
    else ((2^23 + m : Nat) : ℚ) * 2^e / 2^150
  if s = 1 then -mag else mag

def readF32 (d : Bytes) (i : Nat) : ℚ := decodeF32bits (readU32 d i)

/-- Three-digit zero padding for the fractional part of `fmtF3`. -/
def pad3 (n : Nat) : String :=
  if n < 10 then "00" ++ toString n
  else if n < 100 then "0" ++ toString n
  else toString n

/-- Python `{:.3f}` formatting, idealised as exact decimal rounding of the
rational value (the scripts format binary doubles; on the exact decimal
values used by every witness below the two agree digit for digit). -/
def fmtF3 (q : ℚ) : String :=
  let m : Nat := (round (|q| * 1000) : ℤ).toNat
  (if q < 0 then "-" else "") ++ toString (m / 1000) ++ "." ++ pad3 (m % 1000)

/-- Fractional digits of a rational in [0,1) with terminating decimal
expansion, at most `fuel` digits (every value the scripts print with `{}`
terminates after one digit). -/
def fracDigitsStr : ℚ → Nat → String
  | _, 0 => ""
  | f, fuel+1 =>
    let d : Nat := (f * 10).floor.toNat
    let rest : ℚ := f * 10 - (d : ℚ)
    toString d ++ (if rest = 0 then "" else fracDigitsStr rest fuel)

/-- Python `repr`/`str` of a float with terminating decimal expansion,
for example `1872.0`, `0.9`, `0.2`. -/
def pyFloatRepr (q : ℚ) : String :=
  let a : ℚ := |q|
  let ip : Nat := a.floor.toNat
  let fr : ℚ := a - (ip : ℚ)
  let s := fracDigitsStr fr 17
  (if q < 0 then "-" else "") ++ toString ip ++ "." ++ (if s = "" then "0" else s)

/-- A Python number that is either an int or a float: `1` prints as `1`
while `1.0` prints as `1.0`, and the scripts rely on that distinction for
the `opacity:{}` field. -/
structure PyNum where
  isInt : Bool
  val : ℚ
deriving DecidableEq, Repr

def pyNumStr (x : PyNum) : String :=
  if x.isInt then toString x.val.num else pyFloatRepr x.val

def pyInt (n : ℚ) : PyNum := ⟨true, n⟩
def pyFloat (q : ℚ) : PyNum := ⟨false, q⟩

/-! Palettes.  `stroke_colour` is the module-level table of both scripts;
`set_coloured_annots` swaps it for `stroke_colour_annots`. -/

abbrev Palette := List (Nat × String)

def stroke_colour : Palette := [(0, "black"), (1, "grey"), (2, "white"), (3, "yellow")]

def stroke_colour_annots : Palette := [(0, "blue"), (1, "red"), (2, "white"), (3, "yellow")]

/-- `get_stroke_color` of the original script: palette lookup with a
logged black fallback for unknown colour indices. -/
def getStrokeColor (pal : Palette) (c : Nat) : String × List String :=
  match pal.lookup c with
  | some s => (s, [])
  | none => ("black", ["Unknown color: " ++ toString c ++ ", using black as fallback"])

/-- Coordinate transformation applied to every segment point
(lines 291-297 of `rM2svg`, identical in `rM2svg_improved`). -/
def mapPoint (xw yw x y : ℚ) : ℚ × ℚ :=
  let r0 := (yw / xw) / (1872 / 1404)
  if r0 > 1 then (r0 * ((x * xw) / 1404), (y * yw) / 1872)
  else ((x * xw) / 1404, ((1 / r0) * (y * yw)) / 1872)

/-- Options of one conversion call: requested canvas size (floats on the
command line), coloured-annotation mode, and verbose mode. -/
structure Opts where
  xWidth : ℚ
  yWidth : ℚ
  coloured : Bool
  verbose : Bool
deriving DecidableEq, Repr

def dOpts : Opts := ⟨1404, 1872, false, false⟩

/-! Decoder instrumentation: one event per stroke header read and one per
mid-segment end-of-buffer, recording (layer, stroke[, segment]) indices.
These correspond one-to-one to the code points at lines 224 and 275-278
of `rM2svg`. -/

inductive Ev where
  | strokeHeader (layer stroke : Nat)
  | truncMidSeg (layer stroke seg : Nat)
deriving DecidableEq, Repr

def Ev.isHeaderEv : Ev → Bool
  | .strokeHeader _ _ => true
  | _ => false

def Ev.isTruncEv : Ev → Bool
  | .truncMidSeg _ _ _ => true
  | _ => false

/-- Loop state and production: final cursor offset, SVG chunks written
(one per `output.write`), diagnostic lines printed, decoder events. -/
structure Acc where
  off : Nat
  chunks : List String
  logs : List String
  evs : List Ev
deriving DecidableEq, Repr

/-! Chunk builders, one per distinct `output.write` format string of
`rM2svg`. -/

def svgOpenC (o : Opts) : String :=
  "<svg xmlns=\"http://www.w3.org/2000/svg\" height=\"" ++ pyFloatRepr o.yWidth ++
  "\" width=\"" ++ pyFloatRepr o.xWidth ++ "\">"

def scriptC : String :=
  "\n        <script type=\"application/ecmascript\"> <![CDATA[\n            var visiblePage = \x27p1\x27;\n            function goToPage(page) \x7b\n                document.getElementById(visiblePage).setAttribute(\x27style\x27, \x27display: none\x27);\n                document.getElementById(page).setAttribute(\x27style\x27, \x27display: inline\x27);\n                visiblePage = page;\n            \x7d\n        ]]> </script>\n    "

def gOpenC : String := "<g id=\"p1\" style=\"display:inline\">"

def strokeOpen (cname : String) (w : ℚ) (op : PyNum) : String :=
  "<polyline style=\"fill:none;stroke:" ++ cname ++ ";stroke-width:" ++ fmtF3 w ++
  ";opacity:" ++ pyNumStr op ++ "\" points=\""

def brushSplit (cname : String) (sw : ℚ) : String :=
  "\" />\n<polyline style=\"fill:none;stroke:" ++ cname ++ ";stroke-width:" ++
  fmtF3 sw ++ "\" points=\""

def tiltSplit (cname : String) (sw so : ℚ) : String :=
  "\" /><polyline style=\"fill:none;stroke:" ++ cname ++ ";stroke-width:" ++
  fmtF3 sw ++ ";opacity:" ++ fmtF3 so ++ "\" points=\""

def ptChunk (x y : ℚ) : String := fmtF3 x ++ "," ++ fmtF3 y ++ " "

def closeChunk : String := "\" />\n"

def rectC (o : Opts) : String :=
  "<rect x=\"0\" y=\"0\" width=\"" ++ pyFloatRepr o.xWidth ++ "\" height=\"" ++
  pyFloatRepr o.yWidth ++ "\" fill-opacity=\"0\"/>"

/-! Diagnostic messages of `rM2svg`. -/

def segTruncMsg (stroke idx off len : Nat) : String :=
  "Warning: Not enough data for segment " ++ toString idx ++ " of stroke " ++
  toString stroke ++ ". Expected 24 bytes at offset " ++ toString off ++
  ", but file only has " ++ toString len ++ " bytes. Truncating stroke."

def strokeTruncMsg (idx ssize off len : Nat) : String :=
  "Warning: Not enough data for stroke " ++ toString idx ++ " header. Expected " ++
  toString ssize ++ " bytes at offset " ++ toString off ++ ", but file only has " ++
  toString len ++ " bytes. Skipping remaining strokes."

def layerStopMsg (l : Nat) : String :=
  "Warning: Not enough data for layer " ++ toString l ++ " header. Stopping at layer " ++
  toString l ++ "."

def layerCorruptMsg (l n : Nat) : String :=
  "Warning: Layer " ++ toString l ++ " claims to have " ++ toString n ++
  " strokes, which seems corrupted. Skipping this layer."

def layerHasMsg (l n : Nat) : String :=
  "Layer " ++ toString l ++ " has " ++ toString n ++ " strokes"

def clampMsg (n : Nat) : String :=
  "Warning: Suspicious number of layers (" ++ toString n ++
  "). File may be corrupted. Limiting to 10 layers."

def fileHasMsg (n : Nat) : String := "File has " ++ toString n ++ " layers"

/-- Pen-dependent style of the original `rM2svg` (lines 233-263): colour
index (possibly overridden), width after the final division by 2.3,
opacity, and the diagnostic printed for unrecognized pens. -/
structure Style where
  colour : Nat
  width : ℚ
  opacity : PyNum
  logs : List String
deriving DecidableEq, Repr

def resolveOrig (coloured : Bool) (pen colour : Nat) (w : ℚ) : Style :=
  if pen = 0 ∨ pen = 1 then ⟨colour, w / 2.3, pyInt 1, []⟩
  else if pen = 2 ∨ pen = 4 then ⟨colour, (32*w*w - 116*w + 107) / 2.3, pyInt 1, []⟩
  else if pen = 3 then ⟨colour, (64*w - 112) / 2.3, pyFloat 0.9, []⟩
  else if pen = 5 then ⟨if coloured then 3 else colour, 30 / 2.3, pyFloat 0.2, []⟩
  else if pen = 6 then ⟨2, (1280*w*w - 4800*w + 4510) / 2.3, pyInt 1, []⟩
  else if pen = 7 then ⟨colour, (16*w - 27) / 2.3, pyFloat 0.9, []⟩
  else if pen = 8 then ⟨colour, w / 2.3, pyFloat 0, []⟩
  else ⟨colour, w / 2.3, pyFloat 1, ["Unknown pen: " ++ toString pen]⟩

/-- Segment loop of `rM2svg` (lines 270-326): arguments after the style
data are remaining segment count, current segment index, cursor offset,
and the `last_x`/`last_y` sentinels (initially -1). -/
def segLoop (d : Bytes) (o : Opts) (pal : Palette) (layer stroke pen colour : Nat)
    (width : ℚ) : Nat → Nat → Nat → ℚ → ℚ → Acc
  | 0, _, off, _, _ => ⟨off, [], [], []⟩
  | n+1, idx, off, lx, ly =>
    if off + 24 > d.length then
      ⟨off, [], [segTruncMsg stroke idx off d.length], [Ev.truncMidSeg layer stroke idx]⟩
    else
      let p := mapPoint o.xWidth o.yWidth (readF32 d off) (readF32 d (off+4))
      let press := readF32 d (off+8)
      let tilt := readF32 d (off+12)
      if pen = 0 ∧ idx % 8 = 0 then
        let sw := (5 * tilt) * (6 * width - 10) * (1 + 2 * press * press * press)
        let c := getStrokeColor pal colour
        let rest := segLoop d o pal layer stroke pen colour width n (idx+1) (off+24) p.1 p.2
        ⟨rest.off,
         brushSplit c.1 sw :: ((if lx ≠ -1 then [ptChunk lx ly] else []) ++
           (ptChunk p.1 p.2 :: rest.chunks)),
         c.2 ++ rest.logs, rest.evs⟩
      else if pen = 1 ∧ idx % 8 = 0 then
        let sw := (10 * tilt - 2) * (8 * width - 14)
        let so := (press - 0.2) * (press - 0.2)
        let c := getStrokeColor pal colour
        let rest := segLoop d o pal layer stroke pen colour width n (idx+1) (off+24) p.1 p.2
        ⟨rest.off,
         tiltSplit c.1 sw so :: ((if lx ≠ -1 then [ptChunk lx ly] else []) ++
           (ptChunk p.1 p.2 :: rest.chunks)),
         c.2 ++ rest.logs, rest.evs⟩
      else
        let rest := segLoop d o pal layer stroke pen colour width n (idx+1) (off+24) lx ly
        ⟨rest.off, ptChunk p.1 p.2 :: rest.chunks, rest.logs, rest.evs⟩

/-- Stroke loop of `rM2svg` (lines 213-328): remaining stroke count,
current stroke index, cursor offset. -/
def strokeLoop (d : Bytes) (o : Opts) (pal : Palette) (layer : Nat) (fmt24 : Bool) :
    Nat → Nat → Nat → Acc
  | 0, _, off => ⟨off, [], [], []⟩
  | n+1, idx, off =>
    let ssize := if fmt24 then 24 else 20
    if off + ssize > d.length then
      ⟨off, [], [strokeTruncMsg idx ssize off d.length], []⟩
    else
      let pen := readU32 d off
      let colour0 := readU32 d (off+4)
      let w0 := readF32 d (off+12)
      let nseg := if fmt24 then readU32 d (off+20) else readU32 d (off+16)
      let st := resolveOrig o.coloured pen colour0 w0
      let c := getStrokeColor pal st.colour
      let sr := segLoop d o pal layer idx pen st.colour st.width nseg 0 (off+ssize) (-1) (-1)
      let rest := strokeLoop d o pal layer fmt24 n (idx+1) sr.off
      ⟨rest.off,
       strokeOpen c.1 st.width st.opacity :: (sr.chunks ++ (closeChunk :: rest.chunks)),
       st.logs ++ (c.2 ++ (sr.logs ++ rest.logs)),
       Ev.strokeHeader layer idx :: (sr.evs ++ rest.evs)⟩

/-- Layer loop of `rM2svg` (lines 179-328): remaining layer count,
current layer index, cursor offset.  Running out of bytes for a layer
header stops all remaining layers; an insane stroke count skips only the
current layer index. -/
def layerLoop (d : Bytes) (o : Opts) (pal : Palette) (fmt24 : Bool) :
    Nat → Nat → Nat → Acc
  | 0, _, off => ⟨off, [], [], []⟩
  | n+1, idx, off =>
    if off + 4 > d.length then
      ⟨off, [], if o.verbose then [layerStopMsg idx] else [], []⟩
    else
      let nstrokes := readU32 d off
      if nstrokes > 1000000 then
        let rest := layerLoop d o pal fmt24 n (idx+1) (off+4)
        ⟨rest.off, rest.chunks,
         (if o.verbose then [layerCorruptMsg idx nstrokes] else []) ++ rest.logs, rest.evs⟩
      else
        let sr := strokeLoop d o pal idx fmt24 nstrokes 0 (off+4)
        let rest := layerLoop d o pal fmt24 n (idx+1) sr.off
        ⟨rest.off, sr.chunks ++ rest.chunks,
         (if o.verbose then [layerHasMsg idx nstrokes] else []) ++ (sr.logs ++ rest.logs),
         sr.evs ++ rest.evs⟩

/-! Header validation of `rM2svg` (lines 127-160).  The regex built at
line 135 is the 43-byte expected header with the dot of `.lines`
unescaped (hence a wildcard to every byte except a newline) and `#`
replaced by the digit class 3-6; the model restricts the wildcard to
ASCII, where the strict utf-8 decode of the source is the identity. -/

def asciiOf (s : String) : Bytes := s.data.map Char.toNat

def matchAt (d : Bytes) : Nat → Bytes → Bool
  | _, [] => true
  | off, b :: bs => (byteAt d off == b) && matchAt d (off+1) bs

def sigA : Bytes := asciiOf "reMarkable "

def sigB : Bytes := asciiOf "lines file, version="

def origHeaderVersion (d : Bytes) : Option Nat :=
  if matchAt d 0 sigA = true ∧ byteAt d 11 < 128 ∧ byteAt d 11 ≠ 10
     ∧ matchAt d 12 sigB = true
     ∧ (byteAt d 32 = 51 ∨ byteAt d 32 = 52 ∨ byteAt d 32 = 53 ∨ byteAt d 32 = 54)
     ∧ matchAt d 33 (List.replicate 10 32) = true
  then some (byteAt d 32) else none

inductive ConvError where
  | tooShort
  | notValid (header : Bytes) (nlayers : Nat)
  | invalidNlayers (n : Nat)
deriving DecidableEq, Repr

/-- Layer-count sanity clamp shared by both scripts: counts above 100
become `min count 10 = 10`. -/
def clampLayers (n : Nat) : Nat := if n > 100 then min n 10 else n

structure Hdr where
  version : Nat
  declared : Nat
  eff : Nat
  logs : List String
deriving DecidableEq, Repr

def origHeader (d : Bytes) (verbose : Bool) : Except ConvError Hdr :=
  if d.length < 47 then .error .tooShort
  else
    match origHeaderVersion d with
    | none => .error (.notValid (d.take 43) (readU32 d 43))
    | some v =>
      let n := readU32 d 43
      if n < 1 then .error (.notValid (d.take 43) n)
      else
        .ok ⟨v, n, clampLayers n,
             (if n > 100 ∧ verbose then [clampMsg n] else []) ++
             (if verbose then [fileHasMsg (clampLayers n)] else [])⟩

structure Out where
  chunks : List String
  logs : List String
  evs : List Ev
deriving DecidableEq, Repr

/-- Whole conversion of `rM2svg` given the current global palette: header
phase, then the layer loop from offset 47, then the unconditional rect,
group-close and root-close writes (lines 330-334). -/
def rm2svgCore (pal : Palette) (d : Bytes) (o : Opts) : Except ConvError Out :=
  match origHeader d o.verbose with
  | .error e => .error e
  | .ok h =>
    let fmt24 := !(h.version == 51 || h.version == 52)
    let la := layerLoop d o pal fmt24 h.eff 0 47
    .ok ⟨[svgOpenC o, scriptC, gOpenC] ++ la.chunks ++ [rectC o, "</g>", "</svg>"],
         h.logs ++ la.logs, la.evs⟩

/-- Global palette after the `set_coloured_annots` call at the top of
`rm2svg` (line 118-119): a coloured run swaps the shared table, a plain
run leaves whatever was there. -/
def globalPal (o : Opts) (pal : Palette) : Palette :=
  if o.coloured then stroke_colour_annots else pal

/-- Stateful entry point: result together with the global palette left
behind for the next call in the same process. -/
def rm2svgSt (pal : Palette) (d : Bytes) (o : Opts) : Except ConvError Out × Palette :=
  (rm2svgCore (globalPal o pal) d o, globalPal o pal)

/-- Conversion in a fresh process (initial palette table). -/
def rm2svg (d : Bytes) (o : Opts) : Except ConvError Out := (rm2svgSt stroke_colour d o).1

def concatStr (l : List String) : String := l.foldr (· ++ ·) ""

def outStr (x : Out) : String := concatStr x.chunks

def outOf : Except ConvError Out → Out
  | .ok x => x
  | .error _ => ⟨[], [], []⟩

/-! Embedding of `rM2svg_improved`.  Differences from the original:
header matched by `^reMarkable \.lines file, version=([0-9]+)\s*$` with a
looser search fallback, an unknown version falling back to the V5 layout
with an unconditional warning, every other diagnostic gated on verbose,
unknown pens rendered fully transparent, colour indices normalized to 0
before lookup, no last-point join at dynamic-width splits, and no
script block, page group or trailing rect in the output. -/

def vlog (verbose : Bool) (s : String) : List String := if verbose then [s] else []

def isDigitB (b : Nat) : Bool := Nat.ble 48 b && Nat.ble b 57

def isPySpace (b : Nat) : Bool := b == 32 || b == 9 || b == 10 || b == 13 || b == 11 || b == 12

def strOfDigits (bs : Bytes) : String := String.mk (bs.map (fun b => Char.ofNat b))

/-- Primary header pattern of `rM2svg_improved` (line 132): the exact
32-byte prefix, one or more ASCII digits, then only whitespace to the end
of the 43-byte header field. -/
def impPrimary (d : Bytes) : Option String :=
  let hdr := d.take 43
  if matchAt hdr 0 (asciiOf "reMarkable .lines file, version=") = true then
    let rest := hdr.drop 32
    let ds := rest.takeWhile isDigitB
    if 1 ≤ ds.length ∧ (rest.drop ds.length).all isPySpace = true then
      some (strOfDigits ds)
    else none
  else none

/-- Fallback header search of `rM2svg_improved` (line 137):
`reMarkable.*version=([0-9]+)` searched anywhere in the decoded header,
leftmost match start, greedy gap (no newline) and greedy digits. -/
def impFallback (d : Bytes) : Option String :=
  let hdr := d.take 43
  let tryAt (i : Nat) : Option String :=
    if matchAt hdr i (asciiOf "reMarkable") = true then
      let cand := (List.range hdr.length).filter (fun j =>
        Nat.ble (i + 10) j && matchAt hdr j (asciiOf "version=") &&
        isDigitB (byteAt hdr (j+8)) &&
        (List.range' (i+10) (j - (i+10))).all (fun k => byteAt hdr k != 10))
      match cand.getLast? with
      | some j => some (strOfDigits ((hdr.drop (j+8)).takeWhile isDigitB))
      | none => none
    else none
  ((List.range hdr.length).filterMap tryAt).head?

def impHeader (d : Bytes) : Except ConvError (String × Nat) :=
  if d.length < 47 then .error .tooShort
  else
    match (match impPrimary d with | some v => some v | none => impFallback d) with
    | none => .error (.notValid (d.take 43) (readU32 d 43))
    | some v =>
      let n := readU32 d 43
      if n < 1 then .error (.invalidNlayers n)
      else .ok (v, n)

def impFallbackMsg (v : String) : String :=
  "Warning: Unknown version " ++ v ++ ", trying version 5 format"

/-- Stroke-layout selection of `rM2svg_improved` (lines 161-174): the
version table, with unknown versions warned about (unconditionally) and
decoded with the version-5 24-byte layout. -/
def impSelect (v : String) : Bool × List String :=
  if v = "3" ∨ v = "4" then (false, [])
  else if v = "5" ∨ v = "6" then (true, [])
  else (true, [impFallbackMsg v])

def resolveImp (verbose coloured : Bool) (pen colour : Nat) (w : ℚ) : Style :=
  if pen = 0 ∨ pen = 1 then ⟨colour, w / 2.3, pyInt 1, []⟩
  else if pen = 2 ∨ pen = 4 then ⟨colour, (32*w*w - 116*w + 107) / 2.3, pyInt 1, []⟩
  else if pen = 3 then ⟨colour, (64*w - 112) / 2.3, pyFloat 0.9, []⟩
  else if pen = 5 then ⟨if coloured then 3 else colour, 30 / 2.3, pyFloat 0.2, []⟩
  else if pen = 6 then ⟨2, (1280*w*w - 4800*w + 4510) / 2.3, pyInt 1, []⟩
  else if pen = 7 then ⟨colour, (16*w - 27) / 2.3, pyFloat 0.9, []⟩
  else if pen = 8 then ⟨colour, w / 2.3, pyFloat 0, []⟩
  else ⟨colour, w / 2.3, pyFloat 0,
        vlog verbose ("Unknown pen type: " ++ toString pen)⟩

def segTruncMsgI (layer stroke idx off len : Nat) : String :=
  "Warning: Not enough data for segment " ++ toString idx ++ " of stroke " ++
  toString stroke ++ " in layer " ++ toString layer ++ ". Expected 24 bytes at offset " ++
  toString off ++ ", but file only has " ++ toString len ++ " bytes. Truncating stroke."

def strokeTruncMsgI (layer idx ssize off len : Nat) : String :=
  "Warning: Not enough data for stroke " ++ toString idx ++ " header in layer " ++
  toString layer ++ ". Expected " ++ toString ssize ++ " bytes at offset " ++
  toString off ++ ", but file only has " ++ toString len ++
  " bytes. Skipping remaining strokes."

def layerStopMsgI (l : Nat) : String :=
  "Warning: Failed to read number of strokes in layer " ++ toString l ++
  ". Stopping at layer " ++ toString l ++ "."

/-- Segment loop of `rM2svg_improved` (lines 273-319): no `last_x`
tracking, hence no join point at a dynamic-width split. -/
def segLoopI (d : Bytes) (o : Opts) (pal : Palette) (layer stroke pen colour : Nat)
    (width : ℚ) : Nat → Nat → Nat → Acc
  | 0, _, off => ⟨off, [], [], []⟩
  | n+1, idx, off =>
    if off + 24 > d.length then
      ⟨off, [], vlog o.verbose (segTruncMsgI layer stroke idx off d.length), []⟩
    else
      let p := mapPoint o.xWidth o.yWidth (readF32 d off) (readF32 d (off+4))
      let press := readF32 d (off+8)
      let tilt := readF32 d (off+12)
      let cname := (pal.lookup colour).getD "black"
      if pen = 0 ∧ idx % 8 = 0 then
        let sw := (5 * tilt) * (6 * width - 10) * (1 + 2 * press * press * press)
        let rest := segLoopI d o pal layer stroke pen colour width n (idx+1) (off+24)
        ⟨rest.off, brushSplit cname sw :: (ptChunk p.1 p.2 :: rest.chunks),
         rest.logs, rest.evs⟩
      else if pen = 1 ∧ idx % 8 = 0 then
        let sw := (10 * tilt - 2) * (8 * width - 14)
        let so := (press - 0.2) * (press - 0.2)
        let rest := segLoopI d o pal layer stroke pen colour width n (idx+1) (off+24)
        ⟨rest.off, tiltSplit cname sw so :: (ptChunk p.1 p.2 :: rest.chunks),
         rest.logs, rest.evs⟩
      else
        let rest := segLoopI d o pal layer stroke pen colour width n (idx+1) (off+24)
        ⟨rest.off, ptChunk p.1 p.2 :: rest.chunks, rest.logs, rest.evs⟩

def firstStrokeMsgI (pen colour : Nat) (w : ℚ) (nseg : Nat) : String :=
  "First stroke: pen=" ++ toString pen ++ ", colour=" ++ toString colour ++
  ", width=" ++ pyFloatRepr w ++ ", segments=" ++ toString nseg

/-- Stroke loop of `rM2svg_improved` (lines 209-321), with the colour
index normalized to 0 when absent from the palette (lines 265-267). -/
def strokeLoopI (d : Bytes) (o : Opts) (pal : Palette) (layer : Nat) (fmt24 : Bool) :
    Nat → Nat → Nat → Acc
  | 0, _, off => ⟨off, [], [], []⟩
  | n+1, idx, off =>
    let ssize := if fmt24 then 24 else 20
    if off + ssize > d.length then
      ⟨off, [], vlog o.verbose (strokeTruncMsgI layer idx ssize off d.length), []⟩
    else
      let pen := readU32 d off
      let colour0 := readU32 d (off+4)
      let w0 := readF32 d (off+12)
      let nseg := if fmt24 then readU32 d (off+20) else readU32 d (off+16)
      let dbg := if idx = 0 then vlog o.verbose (firstStrokeMsgI pen colour0 w0 nseg) else []
      let st := resolveImp o.verbose o.coloured pen colour0 w0
      let colourN := if (pal.lookup st.colour).isNone then 0 else st.colour
      let cname := (pal.lookup colourN).getD "black"
      let sr := segLoopI d o pal layer idx pen colourN st.width nseg 0 (off+ssize)
      let rest := strokeLoopI d o pal layer fmt24 n (idx+1) sr.off
      ⟨rest.off,
       strokeOpen cname st.width st.opacity :: (sr.chunks ++ (closeChunk :: rest.chunks)),
       dbg ++ (st.logs ++ (sr.logs ++ rest.logs)), sr.evs ++ rest.evs⟩

def layerCorruptMsgI (l n : Nat) : String :=
  "Warning: Layer " ++ toString l ++ " claims to have " ++ toString n ++
  " strokes, which seems corrupted. Skipping this layer."

def layerHasMsgI (l n : Nat) : String :=
  "Layer " ++ toString l ++ " has " ++ toString n ++ " strokes"

def processingMsgI (l n : Nat) : String :=
  "Processing layer " ++ toString (l+1) ++ "/" ++ toString n

/-- Layer loop of `rM2svg_improved` (lines 182-321); `eff` is the clamped
layer count used only by the progress message. -/
def layerLoopI (d : Bytes) (o : Opts) (pal : Palette) (fmt24 : Bool) (eff : Nat) :
    Nat → Nat → Nat → Acc
  | 0, _, off => ⟨off, [], [], []⟩
  | n+1, idx, off =>
    let pm := vlog o.verbose (processingMsgI idx eff)
    if off + 4 > d.length then
      ⟨off, [], pm ++ vlog o.verbose (layerStopMsgI idx), []⟩
    else
      let nstrokes := readU32 d off
      if nstrokes > 1000000 then
        let rest := layerLoopI d o pal fmt24 eff n (idx+1) (off+4)
        ⟨rest.off, rest.chunks,
         pm ++ (vlog o.verbose (layerCorruptMsgI idx nstrokes) ++ rest.logs), rest.evs⟩
      else
        let sr := strokeLoopI d o pal idx fmt24 nstrokes 0 (off+4)
        let rest := layerLoopI d o pal fmt24 eff n (idx+1) sr.off
        ⟨rest.off, sr.chunks ++ rest.chunks,
         pm ++ (vlog o.verbose (layerHasMsgI idx nstrokes) ++ (sr.logs ++ rest.logs)),
         sr.evs ++ rest.evs⟩

def detectedMsgI (v : String) : String := "Detected version: " ++ v

/-- Whole conversion of `rM2svg_improved` given the current global
palette: header phase with version fallback, layer loop from offset 47,
then only the root-close write (line 323) - no page group and no rect. -/
def rm2svgImpCore (pal : Palette) (d : Bytes) (o : Opts) : Except ConvError Out :=
  match impHeader d with
  | .error e => .error e
  | .ok (v, n) =>
    let eff := clampLayers n
    let hlogs := (if n > 100 ∧ o.verbose then [clampMsg n] else []) ++
                 vlog o.verbose (detectedMsgI v)
    let sel := impSelect v
    let la := layerLoopI d o pal sel.1 eff eff 0 47
    .ok ⟨svgOpenC o :: (la.chunks ++ ["</svg>"]), hlogs ++ (sel.2 ++ la.logs), la.evs⟩

def rm2svgImpSt (pal : Palette) (d : Bytes) (o : Opts) : Except ConvError Out × Palette :=
  (rm2svgImpCore (globalPal o pal) d o, globalPal o pal)

def rm2svgImp (d : Bytes) (o : Opts) : Except ConvError Out := (rm2svgImpSt stroke_colour d o).1

/-! Derived descriptions of the dynamic-width segment loop, used to state
what the loop writes for Brush and TiltPencil strokes. -/

/-- Mapped point of segment `i` of a segment run starting at `off`. -/
def mappedPt (d : Bytes) (o : Opts) (off i : Nat) : ℚ × ℚ :=
  mapPoint o.xWidth o.yWidth (readF32 d (off + 24*i)) (readF32 d (off + 24*i + 4))

def segPress (d : Bytes) (off i : Nat) : ℚ := readF32 d (off + 24*i + 8)

def segTilt (d : Bytes) (off i : Nat) : ℚ := readF32 d (off + 24*i + 12)

/-- Close-and-reopen chunk written at split segment `i` of a Brush
(pen 0) or TiltPencil (pen 1) stroke, with the freshly computed width
(and, for TiltPencil, opacity). -/
def dynSplitChunk (d : Bytes) (pal : Palette) (pen colour : Nat) (width : ℚ)
    (off i : Nat) : String :=
  if pen = 0 then
    brushSplit (getStrokeColor pal colour).1
      ((5 * segTilt d off i) * (6 * width - 10) *
        (1 + 2 * segPress d off i * segPress d off i * segPress d off i))
  else
    tiltSplit (getStrokeColor pal colour).1
      ((10 * segTilt d off i - 2) * (8 * width - 14))
      ((segPress d off i - 0.2) * (segPress d off i - 0.2))

/-- Chunks written while processing segment `i` of a dynamic-width
stroke: at every index divisible by 8 the split chunk, then (except at
index 0) the repeated join point - which is the mapped point of the
PREVIOUS SPLIT segment `i - 8`, not of segment `i - 1` - then the
current mapped point. -/
def dynGen (d : Bytes) (o : Opts) (pal : Palette) (pen colour : Nat) (width : ℚ)
    (off : Nat) (i : Nat) : List String :=
  (if i % 8 = 0 then
     dynSplitChunk d pal pen colour width off i ::
       (if i = 0 then []
        else [ptChunk (mappedPt d o off (i-8)).1 (mappedPt d o off (i-8)).2])
   else []) ++ [ptChunk (mappedPt d o off i).1 (mappedPt d o off i).2]

/-- Diagnostics produced while processing segment `i` of a dynamic-width
stroke (the colour lookup at a split may log an unknown colour). -/
def dynLogGen (pal : Palette) (colour : Nat) (i : Nat) : List String :=
  if i % 8 = 0 then (getStrokeColor pal colour).2 else []

/-- After the first mid-segment truncation event, no stroke-header event
may follow. -/
def noHeaderAfterTrunc : List Ev → Bool
  | [] => true
  | e :: t => if e.isTruncEv then t.all (fun x => !x.isHeaderEv) else noHeaderAfterTrunc t

/-! Concrete inputs used by counterexamples and witnesses. -/

/-- A 43-byte header with version byte `v`. -/
def hdrBytes (v : Nat) : Bytes :=
  asciiOf "reMarkable .lines file, version=" ++ [v] ++ List.replicate 10 32

/-- Little-endian uint32 encoding. -/
def u32b (n : Nat) : Bytes := [n % 256, n / 256 % 256, n / 65536 % 256, n / 16777216 % 256]

/-- Minimal valid version-5 file: header plus layer count 1, 47 bytes. -/
def cex47 : Bytes := hdrBytes 53 ++ u32b 1

def cexShort : Bytes := List.replicate 10 0

/-- Version-3 file (20-byte stroke records), one layer declaring two
strokes; stroke 0 (Fineliner) declares one segment but only 20 bytes
follow its header, so its only segment record is truncated while exactly
20 bytes - one V3 stroke header - remain. -/
def cexC1 : Bytes :=
  hdrBytes 51 ++ u32b 1 ++ u32b 2 ++
  (u32b 2 ++ u32b 0 ++ u32b 0 ++ u32b 0 ++ u32b 1) ++ List.replicate 20 0

/-- The same situation with the version-5 24-byte stroke layout. -/
def cexC1v5 : Bytes :=
  hdrBytes 53 ++ u32b 1 ++ u32b 2 ++
  (u32b 2 ++ u32b 0 ++ u32b 0 ++ u32b 0 ++ u32b 0 ++ u32b 1) ++ List.replicate 20 0

/-- File whose header digit is `9`: one layer, one zero-segment stroke
encoded with the 24-byte layout. -/
def cexC2 : Bytes :=
  hdrBytes 57 ++ u32b 1 ++ u32b 1 ++
  (u32b 2 ++ u32b 0 ++ u32b 0 ++ u32b 0 ++ u32b 0 ++ u32b 0)

/-- Valid version-5 header declaring 5000 layers (and no layer data). -/
def cexC7 : Bytes := hdrBytes 53 ++ u32b 5000

/-- Header record produced for `cexC7` in verbose mode. -/
def hdrC7 : Hdr := ⟨53, 5000, 10, [clampMsg 5000, fileHasMsg 10]⟩

/-- Valid version-5 file with one colour-0 Fineliner stroke and no
segments. -/
def cexC9 : Bytes :=
  hdrBytes 53 ++ u32b 1 ++ u32b 1 ++
  (u32b 2 ++ u32b 0 ++ u32b 0 ++ u32b 0 ++ u32b 0 ++ u32b 0)

def colOpts : Opts := ⟨1404, 1872, true, false⟩

def vOpts : Opts := ⟨1404, 1872, false, true⟩

/-- Binary32 bit patterns of the small integers 0..8. -/
def f32ofIdx : Nat → Nat
  | 0 => 0
  | 1 => 0x3F800000
  | 2 => 0x40000000
  | 3 => 0x40400000
  | 4 => 0x40800000
  | 5 => 0x40A00000
  | 6 => 0x40C00000
  | 7 => 0x40E00000
  | 8 => 0x41000000
  | _ => 0

/-- Segment record `(x, y, pressure, tilt, -, -) = (i, i, 0, 0, 0, 0)`. -/
def segRec (i : Nat) : Bytes :=
  u32b (f32ofIdx i) ++ (u32b (f32ofIdx i) ++ (u32b 0 ++ (u32b 0 ++ (u32b 0 ++ u32b 0))))

/-- Nine consecutive segment records with distinct points (0,0)..(8,8). -/
def cexSegs : Bytes := ((List.range 9).map segRec).flatten


/-! Helper lemmas. -/

theorem concatStr_foldr (l : List String) (s : String) :
    l.foldr (· ++ ·) s = concatStr l ++ s := by
  induction l with
  | nil => simp [concatStr]
  | cons a t ih => simp [concatStr, ih, String.append_assoc]

theorem concatStr_append (l₁ l₂ : List String) :
    concatStr (l₁ ++ l₂) = concatStr l₁ ++ concatStr l₂ := by
  have h := concatStr_foldr l₁ (concatStr l₂)
  simpa [concatStr, List.foldr_append] using h

theorem byteAt_take (d : Bytes) : ∀ (k i : Nat), i < k → byteAt (d.take k) i = byteAt d i := by
  induction d with
  | nil => intro k i _; simp [byteAt]
  | cons a t ih =>
    intro k i hik
    cases k with
    | zero => omega
    | succ kk =>
      cases i with
      | zero => simp [byteAt]
      | succ ii => simpa [byteAt, List.getD] using ih kk ii (by omega)

theorem matchAt_take (d : Bytes) (k : Nat) :
    ∀ (pat : Bytes) (off : Nat), off + pat.length ≤ k →
      matchAt (d.take k) off pat = matchAt d off pat := by
  intro pat
  induction pat with
  | nil => intro off _; simp [matchAt]
  | cons b bs ih =>
    intro off h
    simp only [matchAt]
    rw [byteAt_take d k off (by simp at h; omega), ih (off+1) (by simp at h ⊢; omega)]

theorem origHeaderVersion_take (d : Bytes) :
    origHeaderVersion (d.take 43) = origHeaderVersion d := by
  have h1 : matchAt (d.take 43) 0 sigA = matchAt d 0 sigA :=
    matchAt_take d 43 sigA 0 (by decide)
  have h2 : matchAt (d.take 43) 12 sigB = matchAt d 12 sigB :=
    matchAt_take d 43 sigB 12 (by decide)
  have h3 : matchAt (d.take 43) 33 (List.replicate 10 32) = matchAt d 33 (List.replicate 10 32) :=
    matchAt_take d 43 (List.replicate 10 32) 33 (by simp)
  have h4 : byteAt (d.take 43) 11 = byteAt d 11 := byteAt_take d 43 11 (by omega)
  have h5 : byteAt (d.take 43) 32 = byteAt d 32 := byteAt_take d 43 32 (by omega)
  simp only [origHeaderVersion, h1, h2, h3, h4, h5]

/-- C8: the coordinate mapping computes
`ratio = (canvasHeight/canvasWidth)/(1872/1404)` and applies
`x' = ratio*x*canvasWidth/1404`, `y' = y*canvasHeight/1872` when
`ratio > 1`, and `x' = x*canvasWidth/1404`,
`y' = (1/ratio)*y*canvasHeight/1872` otherwise; for the native target
canvas 1404 x 1872 the mapping is the identity on every point. -/
theorem C8_mapPoint_formula :
    (∀ xw yw x y : ℚ, mapPoint xw yw x y =
      if (yw / xw) / (1872 / 1404) > 1 then
        (((yw / xw) / (1872 / 1404)) * ((x * xw) / 1404), (y * yw) / 1872)
      else ((x * xw) / 1404, ((1 / ((yw / xw) / (1872 / 1404))) * (y * yw)) / 1872)) ∧
    (∀ x y : ℚ, mapPoint 1404 1872 x y = (x, y)) := by
  constructor
  · intro xw yw x y; rfl
  · intro x y
    have hr : ((1872 : ℚ) / 1404) / (1872 / 1404) = 1 := by norm_num
    simp only [mapPoint, hr]
    norm_num

/-- C3: an unrecognized pen id (anything outside 0..8) leaves the raw
width unchanged apart from the final division by 2.3, yields opacity 1
with the colour index untouched (hence the default black colour for
index 0 and for any index outside the palette), logs the id, and the
conversion still succeeds whenever the header phase does. -/
theorem C3_unknown_pen (pen colour : Nat) (w : ℚ) (coloured : Bool)
    (hpen : 9 ≤ pen) :
    resolveOrig coloured pen colour w =
      ⟨colour, w / 2.3, pyFloat 1, ["Unknown pen: " ++ toString pen]⟩ ∧
    (getStrokeColor stroke_colour 0).1 = "black" ∧
    (∀ c : Nat, stroke_colour.lookup c = none → (getStrokeColor stroke_colour c).1 = "black") ∧
    (∀ (pal : Palette) (d : Bytes) (o : Opts) (h : Hdr),
       origHeader d o.verbose = .ok h → ((rm2svgSt pal d o).1).isOk = true) := by
  refine ⟨?_, rfl, ?_, ?_⟩
  · have h0 : ¬(pen = 0 ∨ pen = 1) := by omega
    have h24 : ¬(pen = 2 ∨ pen = 4) := by omega
    have h3 : ¬(pen = 3) := by omega
    have h5 : ¬(pen = 5) := by omega
    have h6 : ¬(pen = 6) := by omega
    have h7 : ¬(pen = 7) := by omega
    have h8 : ¬(pen = 8) := by omega
    simp [resolveOrig, h0, h24, h3, h5, h6, h7, h8]
  · intro c hc
    simp [getStrokeColor, hc]
  · intro pal d o h hok
    simp [rm2svgSt, rm2svgCore, hok, Except.isOk, Except.toBool]

/-- C3 witness: pen id 42 at colour 0, raw width 2. -/
theorem C3_unknown_pen_witness :
    9 ≤ 42 ∧
    resolveOrig false 42 0 2 = ⟨0, 2 / 2.3, pyFloat 1, ["Unknown pen: 42"]⟩ :=
  ⟨by decide, (C3_unknown_pen 42 0 2 false (by decide)).1⟩

/-- C6 counterexample: the minimal valid 47-byte version-5 file is
shorter than 49 bytes, yet both scripts accept it and produce output
(the signature is 43 bytes, not 45, so the real threshold is 47). -/
theorem C6_counterexample :
    cex47.length = 47 ∧ 47 < 49 ∧
    (rm2svg cex47 dOpts).isOk = true ∧ (rm2svgImp cex47 dOpts).isOk = true := by
  refine ⟨by decide, by decide, ?_, ?_⟩ <;> decide

/-- C6 amended: every input shorter than 47 bytes (43-byte signature
region plus 4-byte little-endian layer count) fails with the
too-short error before any layer structure is read and before any
output is produced, in both scripts; moreover the signature validation
reads only the first 43 bytes. -/
theorem C6_short_input (d : Bytes) (pal : Palette) (o : Opts) (h : d.length < 47) :
    (rm2svgSt pal d o).1 = .error .tooShort ∧
    (rm2svgImpSt pal d o).1 = .error .tooShort ∧
    (∀ d' : Bytes, origHeaderVersion (d'.take 43) = origHeaderVersion d') := by
  refine ⟨?_, ?_, origHeaderVersion_take⟩
  · simp [rm2svgSt, rm2svgCore, origHeader, h]
  · simp [rm2svgImpSt, rm2svgImpCore, impHeader, h]

/-- C6 witness: a 10-byte input is rejected as too short by both
scripts. -/
theorem C6_short_input_witness :
    (rm2svgSt stroke_colour cexShort dOpts).1 = .error .tooShort ∧
    (rm2svgImpSt stroke_colour cexShort dOpts).1 = .error .tooShort :=
  ⟨(C6_short_input cexShort stroke_colour dOpts (by decide)).1,
   (C6_short_input cexShort stroke_colour dOpts (by decide)).2.1⟩

/-- C7: a validated header whose declared layer count exceeds 100 is not
rejected: the effective count is clamped to exactly 10, the warning is
logged (on the verbose diagnostic stream), and the conversion runs the
layer loop for 10 iterations. -/
theorem C7_layer_clamp (d : Bytes) (h : Hdr)
    (hok : origHeader d true = .ok h) (hbig : 100 < h.declared) :
    h.eff = 10 ∧ clampMsg h.declared ∈ h.logs ∧
    ∀ (pal : Palette) (o : Opts), o.verbose = true →
      ∃ out : Out, (rm2svgSt pal d o).1 = .ok out ∧
        out.chunks = [svgOpenC o, scriptC, gOpenC] ++
          (layerLoop d o (globalPal o pal) (!(h.version == 51 || h.version == 52)) 10 0 47).chunks ++
          [rectC o, "</g>", "</svg>"] := by
  have hstruct : h.eff = clampLayers h.declared ∧
      h.logs = (if h.declared > 100 ∧ True then [clampMsg h.declared] else []) ++
               (if True then [fileHasMsg (clampLayers h.declared)] else []) := by
    simp only [origHeader] at hok
    split at hok
    · exact absurd hok (by simp)
    · split at hok
      · exact absurd hok (by simp)
      · split at hok
        · exact absurd hok (by simp)
        · rw [Except.ok.injEq] at hok
          subst hok
          exact ⟨rfl, rfl⟩
  have heff : h.eff = 10 := by
    rw [hstruct.1, clampLayers, if_pos hbig]
    omega
  refine ⟨heff, ?_, ?_⟩
  · rw [hstruct.2]
    simp [hbig]
  · intro pal o hv
    have hcore : (rm2svgSt pal d o).1 = .ok
        ⟨[svgOpenC o, scriptC, gOpenC] ++
           (layerLoop d o (globalPal o pal) (!(h.version == 51 || h.version == 52)) h.eff 0 47).chunks ++
           [rectC o, "</g>", "</svg>"],
         h.logs ++
           (layerLoop d o (globalPal o pal) (!(h.version == 51 || h.version == 52)) h.eff 0 47).logs,
         (layerLoop d o (globalPal o pal) (!(h.version == 51 || h.version == 52)) h.eff 0 47).evs⟩ := by
      show (rm2svgCore (globalPal o pal) d o) = _
      simp only [rm2svgCore, hv, hok]
    exact ⟨_, hcore, by rw [heff]⟩

/-- C7 witness: a header declaring 5000 layers is clamped to 10 layer
iterations with the warning logged. -/
theorem C7_layer_clamp_witness :
    hdrC7.eff = 10 ∧ clampMsg 5000 ∈ hdrC7.logs :=
  ⟨(C7_layer_clamp cexC7 hdrC7 (by rfl) (by decide)).1,
   (C7_layer_clamp cexC7 hdrC7 (by rfl) (by decide)).2.1⟩

theorem origHeader_ok (d : Bytes) (vb : Bool) (v : Nat)
    (h47 : 47 ≤ d.length) (hv : origHeaderVersion d = some v) (hn : 1 ≤ readU32 d 43) :
    origHeader d vb = .ok ⟨v, readU32 d 43, clampLayers (readU32 d 43),
      (if readU32 d 43 > 100 ∧ vb then [clampMsg (readU32 d 43)] else []) ++
      (if vb then [fileHasMsg (clampLayers (readU32 d 43))] else [])⟩ := by
  simp only [origHeader, hv]
  rw [if_neg (by omega), if_neg (by omega)]

theorem rm2svgCore_ok (pal : Palette) (d : Bytes) (o : Opts) (h : Hdr)
    (hok : origHeader d o.verbose = .ok h) :
    rm2svgCore pal d o = .ok
      ⟨[svgOpenC o, scriptC, gOpenC] ++
         (layerLoop d o pal (!(h.version == 51 || h.version == 52)) h.eff 0 47).chunks ++
         [rectC o, "</g>", "</svg>"],
       h.logs ++ (layerLoop d o pal (!(h.version == 51 || h.version == 52)) h.eff 0 47).logs,
       (layerLoop d o pal (!(h.version == 51 || h.version == 52)) h.eff 0 47).evs⟩ := by
  simp only [rm2svgCore, hok]

/-- C4: once the header has validated, the output of the original script
is the unconditional prefix (svg root, script block, page group), the
decoded body, then - whatever happened during decoding - the invisible
full-canvas rect followed by the page-group and root close tags, so the
text always ends with the rect and `</g></svg>`. -/
theorem C4_svg_closed (d : Bytes) (pal : Palette) (o : Opts) (v : Nat)
    (h47 : 47 ≤ d.length) (hv : origHeaderVersion d = some v) (hn : 1 ≤ readU32 d 43) :
    ∃ (out : Out) (body : List String),
      (rm2svgSt pal d o).1 = .ok out ∧
      out.chunks = [svgOpenC o, scriptC, gOpenC] ++ body ++ [rectC o, "</g>", "</svg>"] ∧
      outStr out = concatStr ([svgOpenC o, scriptC, gOpenC] ++ body) ++
        (rectC o ++ "</g></svg>") := by
  have hok := origHeader_ok d o.verbose v h47 hv hn
  have hcore := rm2svgCore_ok (globalPal o pal) d o _ hok
  refine ⟨_, _, hcore, rfl, ?_⟩
  show concatStr _ = _
  rw [show ([svgOpenC o, scriptC, gOpenC] ++
        (layerLoop d o (globalPal o pal) (!((v:Nat) == 51 || (v:Nat) == 52))
          (clampLayers (readU32 d 43)) 0 47).chunks ++
        [rectC o, "</g>", "</svg>"] : List String) =
      ([svgOpenC o, scriptC, gOpenC] ++
        (layerLoop d o (globalPal o pal) (!((v:Nat) == 51 || (v:Nat) == 52))
          (clampLayers (readU32 d 43)) 0 47).chunks) ++
        [rectC o, "</g>", "</svg>"] from by simp]
  rw [concatStr_append]
  congr 1

/-- C4 witness: the minimal valid 47-byte file converts successfully. -/
theorem C4_svg_closed_witness : (rm2svg cex47 dOpts).isOk = true := by
  obtain ⟨out, body, h1, _, _⟩ :=
    C4_svg_closed cex47 stroke_colour dOpts 53 (by decide) (by decide) (by decide)
  simp [rm2svg, h1, Except.isOk, Except.toBool]

/-- C2: when the improved script's header matches but the version digit
string is none of 3,4,5,6, the file is accepted: layout selection falls
back to the 24-byte V5 layout, the fallback warning is logged, and the
conversion succeeds, decoding all strokes with that layout. -/
theorem C2_unknown_version (d : Bytes) (v : String) (n : Nat)
    (hok : impHeader d = .ok (v, n))
    (hv : v ≠ "3" ∧ v ≠ "4" ∧ v ≠ "5" ∧ v ≠ "6") :
    impSelect v = (true, [impFallbackMsg v]) ∧
    ∀ (pal : Palette) (o : Opts),
      ∃ out : Out, (rm2svgImpSt pal d o).1 = .ok out ∧
        out.chunks = svgOpenC o ::
          ((layerLoopI d o (globalPal o pal) true (clampLayers n) (clampLayers n) 0 47).chunks ++
           ["</svg>"]) ∧
        impFallbackMsg v ∈ out.logs := by
  have hsel : impSelect v = (true, [impFallbackMsg v]) := by
    simp [impSelect, hv.1, hv.2.1, hv.2.2.1, hv.2.2.2]
  refine ⟨hsel, ?_⟩
  intro pal o
  have hcore : (rm2svgImpSt pal d o).1 = .ok
      ⟨svgOpenC o ::
         ((layerLoopI d o (globalPal o pal) true (clampLayers n) (clampLayers n) 0 47).chunks ++
          ["</svg>"]),
       ((if n > 100 ∧ o.verbose then [clampMsg n] else []) ++ vlog o.verbose (detectedMsgI v)) ++
         ([impFallbackMsg v] ++
          (layerLoopI d o (globalPal o pal) true (clampLayers n) (clampLayers n) 0 47).logs),
       (layerLoopI d o (globalPal o pal) true (clampLayers n) (clampLayers n) 0 47).evs⟩ := by
    show rm2svgImpCore (globalPal o pal) d o = _
    simp only [rm2svgImpCore, hok, hsel]
  exact ⟨_, hcore, rfl, by simp⟩

/-- C2 witness: the version-9 file is accepted by the improved script
with the 24-byte fallback layout. -/
theorem C2_unknown_version_witness :
    impSelect "9" = (true, [impFallbackMsg "9"]) ∧ (rm2svgImp cexC2 dOpts).isOk = true := by
  have h := C2_unknown_version cexC2 "9" 1 (by rfl) (by decide)
  refine ⟨h.1, ?_⟩
  obtain ⟨out, h1, _, _⟩ := h.2 stroke_colour dOpts
  simp [rm2svgImp, h1, Except.isOk, Except.toBool]

/-- C9 counterexample: with the process-global palette modelled as
passed-through state, run 1 converts `cexC9` with plain options from a
fresh process, run 2 converts with coloured annotations (mutating the
shared table irreversibly), and run 3 repeats run 1's byte buffer and
options - yet produces different bytes (a blue stroke instead of a
black one).  The pipeline therefore does depend on process-wide mutable
state, and two runs with identical inputs and options need not be
byte-identical. -/
theorem C9_counterexample :
    (outOf (rm2svgSt stroke_colour cexC9 dOpts).1).chunks ≠
      (outOf (rm2svgSt (rm2svgSt (rm2svgSt stroke_colour cexC9 dOpts).2 cexC9 colOpts).2
        cexC9 dOpts).1).chunks ∧
    (rm2svgSt (rm2svgSt stroke_colour cexC9 dOpts).2 cexC9 colOpts).2 =
      stroke_colour_annots := by
  constructor <;> decide

/-- C9 amended: the conversion is a deterministic function of the byte
buffer, the options and the current palette state; in particular two
CONSECUTIVE runs with identical buffer and options produce identical
results (a coloured run rewrites the table that it reads, and a plain
run leaves it untouched), but a coloured conversion in between can
change the output of a later plain run. -/
theorem C9_consecutive_determinism (pal : Palette) (d : Bytes) (o : Opts) :
    (rm2svgSt ((rm2svgSt pal d o).2) d o).1 = (rm2svgSt pal d o).1 := by
  cases h : o.coloured <;> simp [rm2svgSt, globalPal, h]

/-- C10: for a Brush or TiltPencil stroke with at least one decoded
segment, the very first chunk the segment loop writes is already the
close-and-reopen chunk of split index 0 - so the polyline opened for
the stroke header is closed with an empty points attribute - and no
join point precedes the first mapped point, because the last-point
sentinel is still -1. -/
theorem C10_first_polyline_empty (d : Bytes) (o : Opts) (pal : Palette)
    (layer stroke pen colour : Nat) (width : ℚ) (n off : Nat)
    (hpen : pen = 0 ∨ pen = 1) (hn : 1 ≤ n) (hoff : off + 24 ≤ d.length) :
    ∃ (rest : List String) (tail : String),
      (segLoop d o pal layer stroke pen colour width n 0 off (-1) (-1)).chunks =
        dynSplitChunk d pal pen colour width off 0 ::
          (ptChunk (mappedPt d o off 0).1 (mappedPt d o off 0).2 :: rest) ∧
      dynSplitChunk d pal pen colour width off 0 = "\" />" ++ tail := by
  obtain ⟨m, rfl⟩ : ∃ m, n = m + 1 := ⟨n - 1, by omega⟩
  have hlen : ¬(off + 24 > d.length) := by omega
  rcases hpen with hp | hp <;> subst hp
  · refine ⟨(segLoop d o pal layer stroke 0 colour width m 1 (off+24)
        (mapPoint o.xWidth o.yWidth (readF32 d off) (readF32 d (off+4))).1
        (mapPoint o.xWidth o.yWidth (readF32 d off) (readF32 d (off+4))).2).chunks,
      "\n<polyline style=\"fill:none;stroke:" ++ (getStrokeColor pal colour).1 ++
        ";stroke-width:" ++
        fmtF3 ((5 * segTilt d off 0) * (6 * width - 10) *
          (1 + 2 * segPress d off 0 * segPress d off 0 * segPress d off 0)) ++
        "\" points=\"", ?_, ?_⟩
    · simp [segLoop, hlen, dynSplitChunk, mappedPt, segTilt, segPress]
    · simp only [dynSplitChunk, if_pos rfl, brushSplit]
      rw [show ("\" />\n<polyline style=\"fill:none;stroke:" : String) =
        "\" />" ++ "\n<polyline style=\"fill:none;stroke:" from by decide]
      simp only [String.append_assoc]
      simp
  · refine ⟨(segLoop d o pal layer stroke 1 colour width m 1 (off+24)
        (mapPoint o.xWidth o.yWidth (readF32 d off) (readF32 d (off+4))).1
        (mapPoint o.xWidth o.yWidth (readF32 d off) (readF32 d (off+4))).2).chunks,
      "<polyline style=\"fill:none;stroke:" ++ (getStrokeColor pal colour).1 ++
        ";stroke-width:" ++ fmtF3 ((10 * segTilt d off 0 - 2) * (8 * width - 14)) ++
        ";opacity:" ++ fmtF3 ((segPress d off 0 - 0.2) * (segPress d off 0 - 0.2)) ++
        "\" points=\"", ?_, ?_⟩
    · simp [segLoop, hlen, dynSplitChunk, mappedPt, segTilt, segPress]
    · simp only [dynSplitChunk, tiltSplit]
      rw [show ("\" /><polyline style=\"fill:none;stroke:" : String) =
        "\" />" ++ "<polyline style=\"fill:none;stroke:" from by decide]
      simp only [String.append_assoc]
      rw [if_neg (by decide : ¬(1 = 0))]

/-- C10 witness: on the nine-segment Brush run the chunk written right
after the initial split is the first mapped point (0,0). -/
theorem C10_first_polyline_empty_witness :
    (segLoop cexSegs dOpts stroke_colour 0 0 0 0 0 9 0 0 (-1) (-1)).chunks.getD 1 "" =
      ptChunk 0 0 := by
  obtain ⟨rest, tail, h1, h2⟩ :=
    C10_first_polyline_empty cexSegs dOpts stroke_colour 0 0 0 0 0 9 0
      (Or.inl rfl) (by omega) (by decide)
  rw [h1]
  show ptChunk (mappedPt cexSegs dOpts 0 0).1 (mappedPt cexSegs dOpts 0 0).2 = ptChunk 0 0
  decide

theorem segLoop_dyn_aux (d : Bytes) (o : Opts) (pal : Palette)
    (layer stroke pen colour : Nat) (width : ℚ) (base : Nat)
    (hpen : pen = 0 ∨ pen = 1) :
    ∀ (n k : Nat) (lx ly : ℚ),
      base + 24 * (k + n) ≤ d.length →
      (∀ i, i < k + n → (mappedPt d o base i).1 ≠ -1) →
      ((k = 0 ∧ lx = -1 ∧ ly = -1) ∨
       (1 ≤ k ∧ lx = (mappedPt d o base (8 * ((k-1) / 8))).1 ∧
        ly = (mappedPt d o base (8 * ((k-1) / 8))).2)) →
      segLoop d o pal layer stroke pen colour width n k (base + 24 * k) lx ly =
        ⟨base + 24 * (k + n),
         ((List.range' k n).map (dynGen d o pal pen colour width base)).flatten,
         ((List.range' k n).map (dynLogGen pal colour)).flatten,
         []⟩ := by
  intro n
  induction n with
  | zero =>
    intro k lx ly _ _ _
    simp [segLoop, List.range']
  | succ m ih =>
    intro k lx ly hb hs hinv
    have hle : ¬(base + 24 * k + 24 > d.length) := by omega
    have hoffs : base + 24 * k + 24 = base + 24 * (k + 1) := by ring
    have hb' : base + 24 * ((k+1) + m) ≤ d.length := by omega
    have hs' : ∀ i, i < (k+1) + m → (mappedPt d o base i).1 ≠ -1 := by
      intro i hi; exact hs i (by omega)
    have hcnt : k + (m + 1) = (k + 1) + m := by omega
    by_cases hk : k % 8 = 0
    · have hj1 : 8 * ((k + 1 - 1) / 8) = k := by omega
      have hrec := ih (k+1)
        (mapPoint o.xWidth o.yWidth (readF32 d (base + 24 * k))
          (readF32 d (base + 24 * k + 4))).1
        (mapPoint o.xWidth o.yWidth (readF32 d (base + 24 * k))
          (readF32 d (base + 24 * k + 4))).2
        hb' hs' (Or.inr ⟨by omega, by rw [hj1]; rfl, by rw [hj1]; rfl⟩)
      rcases hinv with ⟨hk0, hlx, hly⟩ | ⟨hk1, hlx, hly⟩
      · subst hk0 hlx hly
        rcases hpen with hp | hp <;> subst hp <;>
        · simp only [segLoop]
          rw [if_neg hle]
          simp only [hoffs]
          rw [hrec]
          simp [dynGen, dynLogGen, dynSplitChunk, mappedPt, segTilt, segPress,
            hcnt, List.range'_succ]
      · have hjlt : 8 * ((k - 1) / 8) < k + (m + 1) := by omega
        have hne : lx ≠ -1 := by rw [hlx]; exact hs _ hjlt
        have hj2 : 8 * ((k - 1) / 8) = k - 8 := by omega
        have hkne : ¬(k = 0) := by omega
        rcases hpen with hp | hp <;> subst hp <;>
        · simp only [segLoop]
          rw [if_neg hle]
          simp only [hoffs]
          rw [hrec]
          subst hlx hly
          rw [hj2] at hne
          simp only [mappedPt] at hne
          simp [dynGen, dynLogGen, dynSplitChunk, mappedPt, segTilt, segPress,
            hk, hkne, hne, hj2, hcnt, List.range'_succ]
    · have hkne0 : ¬(k = 0) := by omega
      have hinv' : lx = (mappedPt d o base (8 * ((k - 1) / 8))).1 ∧
          ly = (mappedPt d o base (8 * ((k - 1) / 8))).2 := by
        rcases hinv with ⟨hk0, _, _⟩ | ⟨_, hlx, hly⟩
        · subst hk0; exact absurd rfl hk
        · exact ⟨hlx, hly⟩
      have hj3 : 8 * ((k + 1 - 1) / 8) = 8 * ((k - 1) / 8) := by omega
      have hrec := ih (k+1) lx ly hb' hs'
        (Or.inr ⟨by omega, by rw [hj3]; exact hinv'.1, by rw [hj3]; exact hinv'.2⟩)
      rcases hpen with hp | hp <;> subst hp <;>
      · simp only [segLoop]
        rw [if_neg hle]
        simp only [hoffs]
        rw [hrec]
        simp [dynGen, dynLogGen, mappedPt, hk, hcnt, List.range'_succ]

/-- C5 amended: for a Brush (pen 0) or TiltPencil (pen 1) stroke whose
`n` segment records are all present (and whose mapped x coordinates
avoid the -1 sentinel), the segment loop emits exactly, for every
segment index divisible by 8, the close-and-reopen chunk with freshly
computed width (and, for TiltPencil, opacity) followed - except at
index 0 - by one repeated join point, and that join point is the mapped
point of the PREVIOUS SPLIT segment (index i-8, the first point of the
previous polyline), not the point written immediately before the split. -/
theorem C5_split_join (d : Bytes) (o : Opts) (pal : Palette)
    (layer stroke pen colour : Nat) (width : ℚ) (off n : Nat)
    (hpen : pen = 0 ∨ pen = 1)
    (hlen : off + 24 * n ≤ d.length)
    (hsent : ∀ i, i < n → (mappedPt d o off i).1 ≠ -1) :
    segLoop d o pal layer stroke pen colour width n 0 off (-1) (-1) =
      ⟨off + 24 * n,
       ((List.range n).map (dynGen d o pal pen colour width off)).flatten,
       ((List.range n).map (dynLogGen pal colour)).flatten,
       []⟩ := by
  have h := segLoop_dyn_aux d o pal layer stroke pen colour width off hpen n 0 (-1) (-1)
    (by omega) (by intro i hi; exact hsent i (by omega)) (Or.inl ⟨rfl, rfl, rfl⟩)
  rw [show off + 24 * 0 = off from by ring] at h
  rw [h]
  simp [List.range_eq_range']

/-- C5 witness: the nine-segment Brush stroke with distinct points
(0,0)..(8,8). -/
theorem C5_split_join_witness :
    segLoop cexSegs dOpts stroke_colour 0 0 0 0 0 9 0 0 (-1) (-1) =
      ⟨0 + 24 * 9,
       ((List.range 9).map (dynGen cexSegs dOpts stroke_colour 0 0 0 0)).flatten,
       ((List.range 9).map (dynLogGen stroke_colour 0)).flatten,
       []⟩ :=
  C5_split_join cexSegs dOpts stroke_colour 0 0 0 0 0 0 9
    (Or.inl rfl) (by decide) (by decide)

/-- C5 counterexample: in that stroke the polyline re-opened at split
segment 8 starts with the join write `0.000,0.000` - the mapped point
of segment 0, the previous split - whereas the claim requires the point
written immediately before the split, `7.000,7.000` (segment 7). -/
theorem C5_counterexample :
    ((segLoop cexSegs dOpts stroke_colour 0 0 0 0 0 9 0 0 (-1) (-1)).chunks.getD 10 "" =
      ptChunk (mappedPt cexSegs dOpts 0 0).1 (mappedPt cexSegs dOpts 0 0).2) ∧
    (segLoop cexSegs dOpts stroke_colour 0 0 0 0 0 9 0 0 (-1) (-1)).chunks.getD 10 "" ≠
      ptChunk (mappedPt cexSegs dOpts 0 7).1 (mappedPt cexSegs dOpts 0 7).2 := by
  constructor <;> decide

theorem origHeaderVersion_byte (d : Bytes) (v : Nat)
    (hv : origHeaderVersion d = some v) : v = byteAt d 32 := by
  simp only [origHeaderVersion] at hv
  split at hv
  · exact (Option.some.injEq _ _ ▸ hv).symm
  · simp at hv

theorem origHeader_version (d : Bytes) (vb : Bool) (h : Hdr)
    (hh : origHeader d vb = .ok h) : h.version = byteAt d 32 := by
  simp only [origHeader] at hh
  split at hh
  · simp at hh
  · split at hh
    · simp at hh
    · split at hh
      · simp at hh
      · rw [Except.ok.injEq] at hh
        subst hh
        exact origHeaderVersion_byte d _ (by assumption)

theorem segLoop_evs (d : Bytes) (o : Opts) (pal : Palette)
    (layer stroke pen colour : Nat) (width : ℚ) :
    ∀ (n idx off : Nat) (lx ly : ℚ),
      (segLoop d o pal layer stroke pen colour width n idx off lx ly).evs = [] ∨
      (∃ i, (segLoop d o pal layer stroke pen colour width n idx off lx ly).evs =
          [Ev.truncMidSeg layer stroke i] ∧
        (segLoop d o pal layer stroke pen colour width n idx off lx ly).off + 24 >
          d.length) := by
  intro n
  induction n with
  | zero => intro idx off lx ly; left; simp [segLoop]
  | succ m ih =>
    intro idx off lx ly
    by_cases h : off + 24 > d.length
    · right
      exact ⟨idx, by simp [segLoop, h], by simp [segLoop, h]⟩
    · simp only [segLoop]
      rw [if_neg h]
      split
      · simpa using ih (idx+1) (off+24)
          (mapPoint o.xWidth o.yWidth (readF32 d off) (readF32 d (off+4))).1
          (mapPoint o.xWidth o.yWidth (readF32 d off) (readF32 d (off+4))).2
      · split
        · simpa using ih (idx+1) (off+24)
            (mapPoint o.xWidth o.yWidth (readF32 d off) (readF32 d (off+4))).1
            (mapPoint o.xWidth o.yWidth (readF32 d off) (readF32 d (off+4))).2
        · simpa using ih (idx+1) (off+24) lx ly

theorem strokeLoop_empty (d : Bytes) (o : Opts) (pal : Palette) (layer : Nat) :
    ∀ (n idx off : Nat), off + 24 > d.length →
      (strokeLoop d o pal layer true n idx off).evs = [] ∧
      (strokeLoop d o pal layer true n idx off).off = off := by
  intro n idx off h
  cases n with
  | zero => exact ⟨rfl, rfl⟩
  | succ m => simp [strokeLoop, h]

theorem layerLoop_empty (d : Bytes) (o : Opts) (pal : Palette) :
    ∀ (n idx off : Nat), off + 24 > d.length →
      (layerLoop d o pal true n idx off).evs = [] := by
  intro n
  induction n with
  | zero => intro idx off _; rfl
  | succ m ih =>
    intro idx off h
    by_cases h4 : off + 4 > d.length
    · simp [layerLoop, h4]
    · simp only [layerLoop]
      rw [if_neg h4]
      by_cases hbig : readU32 d off > 1000000
      · rw [if_pos hbig]
        simpa using ih (idx+1) (off+4) (by omega)
      · rw [if_neg hbig]
        have hs := strokeLoop_empty d o pal idx (readU32 d off) 0 (off+4) (by omega)
        simp only [hs.1, hs.2]
        simpa using ih (idx+1) (off+4) (by omega)

theorem noHeaderAfterTrunc_append (a b : List Ev)
    (ha : a.all (fun e => !e.isTruncEv) = true) :
    noHeaderAfterTrunc (a ++ b) = noHeaderAfterTrunc b := by
  induction a with
  | nil => rfl
  | cons e t ih =>
    simp only [List.all_cons, Bool.and_eq_true, Bool.not_eq_true'] at ha
    have he : noHeaderAfterTrunc (e :: (t ++ b)) = noHeaderAfterTrunc (t ++ b) := by
      simp [noHeaderAfterTrunc, ha.1]
    rw [List.cons_append, he, ih ha.2]

theorem strokeLoop_struct (d : Bytes) (o : Opts) (pal : Palette) (layer : Nat) :
    ∀ (n idx off : Nat),
      ((strokeLoop d o pal layer true n idx off).evs.all (fun e => !e.isTruncEv) = true) ∨
      (∃ (pre : List Ev) (l s i : Nat),
        (strokeLoop d o pal layer true n idx off).evs = pre ++ [Ev.truncMidSeg l s i] ∧
        pre.all (fun e => !e.isTruncEv) = true ∧
        (strokeLoop d o pal layer true n idx off).off + 24 > d.length) := by
  intro n
  induction n with
  | zero => intro idx off; left; simp [strokeLoop]
  | succ m ih =>
    intro idx off
    by_cases h : off + 24 > d.length
    · left; simp [strokeLoop, h]
    · simp only [strokeLoop, if_true, Bool.true_eq, ite_true]
      rw [if_neg h]
      rcases segLoop_evs d o pal layer idx (readU32 d off)
          (resolveOrig o.coloured (readU32 d off) (readU32 d (off+4)) (readF32 d (off+12))).colour
          (resolveOrig o.coloured (readU32 d off) (readU32 d (off+4)) (readF32 d (off+12))).width
          (readU32 d (off+20)) 0 (off+24) (-1) (-1)
        with hseg | ⟨i, hseg, hoff⟩
      · rcases ih (idx+1)
            ((segLoop d o pal layer idx (readU32 d off)
              (resolveOrig o.coloured (readU32 d off) (readU32 d (off+4)) (readF32 d (off+12))).colour
              (resolveOrig o.coloured (readU32 d off) (readU32 d (off+4)) (readF32 d (off+12))).width
              (readU32 d (off+20)) 0 (off+24) (-1) (-1)).off)
          with hr | ⟨pre, l, s, i, hr, hpre, hro⟩
        · left
          rw [hseg]
          simp only [List.nil_append, List.all_cons]
          rw [show Ev.isTruncEv (Ev.strokeHeader layer idx) = false from rfl]
          simpa using hr
        · right
          refine ⟨Ev.strokeHeader layer idx :: pre, l, s, i, ?_, ?_, ?_⟩
          · simp [hseg, hr]
          · simp only [List.all_cons]
            rw [show Ev.isTruncEv (Ev.strokeHeader layer idx) = false from rfl]
            simpa using hpre
          · simpa using hro
      · right
        have hrest := strokeLoop_empty d o pal layer m (idx+1)
          ((segLoop d o pal layer idx (readU32 d off)
            (resolveOrig o.coloured (readU32 d off) (readU32 d (off+4)) (readF32 d (off+12))).colour
            (resolveOrig o.coloured (readU32 d off) (readU32 d (off+4)) (readF32 d (off+12))).width
            (readU32 d (off+20)) 0 (off+24) (-1) (-1)).off)
          hoff
        refine ⟨[Ev.strokeHeader layer idx], layer, idx, i, ?_, by rfl, ?_⟩
        · simp [hseg, hrest.1]
        · simp only [hrest.2]
          exact hoff

theorem layerLoop_nhat (d : Bytes) (o : Opts) (pal : Palette) :
    ∀ (n idx off : Nat),
      noHeaderAfterTrunc (layerLoop d o pal true n idx off).evs = true := by
  intro n
  induction n with
  | zero => intro idx off; rfl
  | succ m ih =>
    intro idx off
    by_cases h4 : off + 4 > d.length
    · simp [layerLoop, h4, noHeaderAfterTrunc]
    · simp only [layerLoop]
      rw [if_neg h4]
      by_cases hbig : readU32 d off > 1000000
      · rw [if_pos hbig]
        simpa using ih (idx+1) (off+4)
      · rw [if_neg hbig]
        rcases strokeLoop_struct d o pal idx (readU32 d off) 0 (off+4)
          with hs | ⟨pre, l, s, i, hs, hpre, hoff⟩
        · simp only [hs]
          rw [noHeaderAfterTrunc_append _ _ hs]
          exact ih (idx+1) _
        · have hrest := layerLoop_empty d o pal m (idx+1)
            ((strokeLoop d o pal idx true (readU32 d off) 0 (off+4)).off) hoff
          simp only [hs, hrest, List.append_nil]
          rw [noHeaderAfterTrunc_append _ _ hpre]
          simp [noHeaderAfterTrunc, Ev.isTruncEv]

/-- C1 counterexample: in the version-3 file `cexC1` (20-byte stroke
layout) stroke 0's only segment record is truncated with 20 bytes
remaining, yet the decoder then reads stroke 1's header from those very
bytes: the event trace shows a stroke-header read AFTER the mid-segment
truncation, contradicting the claim that no subsequent stroke header is
read in that layer. -/
theorem C1_counterexample :
    (outOf (rm2svg cexC1 dOpts)).evs =
      [Ev.strokeHeader 0 0, Ev.truncMidSeg 0 0 0, Ev.strokeHeader 0 1] ∧
    noHeaderAfterTrunc (outOf (rm2svg cexC1 dOpts)).evs = false := by
  constructor <;> decide

/-- C1 amended: already-read segments are kept and the truncated stroke
is still closed (second conjunct: every stroke whose header was read has
its polyline open chunk, its segment chunks and the unconditional close
chunk in the output), and - when the stroke layout in use is the
24-byte V5/V6/fallback layout - after a mid-segment truncation no
further stroke header is read anywhere in the decode (first conjunct);
with the 20-byte V3/V4 layout a subsequent header may still be read
when 20 to 23 bytes remain. -/
theorem C1_trunc_stops (pal : Palette) (d : Bytes) (o : Opts) (out : Out)
    (hok : (rm2svgSt pal d o).1 = Except.ok out)
    (hfmt : byteAt d 32 ≠ 51 ∧ byteAt d 32 ≠ 52) :
    noHeaderAfterTrunc out.evs = true ∧
    (∀ (layer n2 idx off2 : Nat), ¬(off2 + 24 > d.length) →
      ∃ (c0 : String) (seg post : List String),
        (strokeLoop d o (globalPal o pal) layer true (n2+1) idx off2).chunks =
          c0 :: (seg ++ (closeChunk :: post))) := by
  constructor
  · rcases herr : origHeader d o.verbose with e | h
    · rw [show (rm2svgSt pal d o).1 = rm2svgCore (globalPal o pal) d o from rfl] at hok
      simp [rm2svgCore, herr] at hok
    · have hv : h.version = byteAt d 32 := origHeader_version d o.verbose h herr
      have hfmt24 : (!(h.version == 51 || h.version == 52)) = true := by
        rw [hv]
        simp [Nat.beq_eq_true_eq, hfmt.1, hfmt.2]
      rw [show (rm2svgSt pal d o).1 = rm2svgCore (globalPal o pal) d o from rfl] at hok
      rw [rm2svgCore_ok (globalPal o pal) d o h herr, Except.ok.injEq] at hok
      subst hok
      simp only [hfmt24]
      exact layerLoop_nhat d o (globalPal o pal) h.eff 0 47
  · intro layer n2 idx off2 hb
    simp only [strokeLoop, if_true, Bool.true_eq, ite_true]
    rw [if_neg hb]
    exact ⟨_, _, _, rfl⟩

/-- C1 witness: the same truncation situation as the counterexample but
with the 24-byte version-5 layout: the trace is header-then-truncation
and nothing after. -/
theorem C1_trunc_stops_witness :
    noHeaderAfterTrunc (outOf (rm2svg cexC1v5 dOpts)).evs = true :=
  (C1_trunc_stops stroke_colour cexC1v5 dOpts (outOf (rm2svg cexC1v5 dOpts))
    (by rfl) (by decide)).1

end RM
